import Mathlib

/-!
Verification of the shared-browser news-summarization orchestrator
(`scripts/generate_all_inshorts.py`).

The Python source is shallowly embedded: pure helpers become Lean functions,
and the effectful collaborators (filesystem, Selenium WebDriver, the external
`generate_inshorts_selenium` module) are represented by explicit outcome
records (`CatEffects`, `RunWorld`) whose fields say what each external call
would return or raise.  Python exceptions are modelled with `Except`.
-/

/- ## Character-list string machinery

Python's `str.replace(old, new)` replaces every non-overlapping occurrence of
`old`, scanning left to right.  We model strings of interest as `List Char`
(obtained from `String.toList`) and define the scan directly, with a
structural fuel argument so that every definition is kernel-computable. -/

/-- `startsWithL p l` is true iff `p` is an initial segment of `l`. -/
def startsWithL : List Char → List Char → Bool
  | [], _ => true
  | _ :: _, [] => false
  | p :: ps, c :: cs => p == c && startsWithL ps cs

/-- `endsWithL p l` is true iff `p` is a final segment of `l`. -/
def endsWithL (p l : List Char) : Bool :=
  startsWithL p.reverse l.reverse

/-- `occursInB p l` is true iff `p` occurs as a contiguous segment of `l`. -/
def occursInB (p : List Char) : List Char → Bool
  | [] => startsWithL p []
  | c :: cs => startsWithL p (c :: cs) || occursInB p cs

/-- One left-to-right replacement scan with explicit fuel; `replaceAll` below
always supplies enough fuel for the scan to finish.  Mirrors CPython's
`str.replace` for a non-empty pattern: at each position, if the pattern
matches, emit the replacement and jump past the match, else keep the
character and move one position right. -/
def replaceAllGo (pat repl : List Char) : Nat → List Char → List Char
  | 0, s => s
  | _ + 1, [] => []
  | fuel + 1, c :: cs =>
    if startsWithL pat (c :: cs) = true ∧ pat ≠ [] then
      repl ++ replaceAllGo pat repl fuel ((c :: cs).drop pat.length)
    else
      c :: replaceAllGo pat repl fuel cs

/-- Python `s.replace(pat, repl)` for non-empty `pat` (for `pat = []` this is
the identity; the program only ever replaces the non-empty literals
`news_` and `.json`). -/
def replaceAll (pat repl s : List Char) : List Char :=
  replaceAllGo pat repl s.length s

/-- The literal `news_` of the input-file naming convention. -/
def patNews : List Char := ['n', 'e', 'w', 's', '_']

/-- The literal `.json` of the input-file naming convention. -/
def patJson : List Char := ['.', 'j', 's', 'o', 'n']

/-- A basename matches the glob pattern `news_*.json` iff it starts with
`news_`, ends with `.json`, and is long enough that the two literals do not
overlap (glob `*` matches any, possibly empty, run of characters). -/
def globMatch (l : List Char) : Bool :=
  startsWithL patNews l && endsWithL patJson l && decide (10 ≤ l.length)

/-- The category extraction performed by the source:
`basename.replace('news_', '').replace('.json', '')` — note that this removes
every occurrence of each literal, not only the prefix and the suffix. -/
def extractCategory (l : List Char) : List Char :=
  replaceAll patJson [] (replaceAll patNews [] l)

/-- `get_available_categories`: scan the input directory (modelled as the
list of basenames it contains) for files matching `news_*.json` and derive a
category identifier from each match.  A missing or empty directory is the
empty listing and yields `[]`. -/
def get_available_categories (listing : List String) : List String :=
  (listing.filter (fun f => globMatch f.toList)).map
    (fun f => String.mk (extractCategory f.toList))

/-- Definition following the spec words for §4.1 (and the C6 claim text):
the identifier is derived by stripping the fixed prefix `news_` and the
fixed suffix `.json` from each matching filename. -/
def get_available_categories_specStrip (listing : List String) : List String :=
  (listing.filter (fun f => globMatch f.toList)).map
    (fun f => String.mk (((f.toList).drop patNews.length).take
      (f.toList.length - patNews.length - patJson.length)))

/-- Model of `os.path.join(a, b)` for the paths the program builds: an
absolute `b` wins, an empty `a` is dropped, and otherwise a `/` separator is
inserted unless `a` already ends with one. -/
def joinPath (a b : String) : String :=
  if b.toList.head? = some '/' then b
  else if a.toList = [] then b
  else if a.toList.getLast? = some '/' then a ++ b
  else a ++ "/" ++ b

/- ## Timestamps

`process_category_with_shared_browser` stamps its output with
`time.strftime('%Y-%m-%d %H:%M:%S')`.  We model the broken-down local time
supplied by the C library as a record of numeric fields and the format call
as digit-by-digit rendering; this is faithful for the field ranges
`time.localtime` can produce (year at most 9999, other fields below 100). -/

/-- A broken-down local time, as delivered to `time.strftime`. -/
structure Timestamp where
  year : Nat
  month : Nat
  day : Nat
  hour : Nat
  minute : Nat
  second : Nat
deriving DecidableEq

/-- The decimal digit character for `d % 10`. -/
def digitChar (d : Nat) : Char :=
  Char.ofNat (48 + d % 10)

/-- Model of `time.strftime('%Y-%m-%d %H:%M:%S', t)`: the year zero-padded to
four digits, every other field zero-padded to two. -/
def strftime_YmdHMS (t : Timestamp) : String :=
  String.mk
    [digitChar (t.year / 1000), digitChar (t.year / 100),
     digitChar (t.year / 10), digitChar t.year, '-',
     digitChar (t.month / 10), digitChar t.month, '-',
     digitChar (t.day / 10), digitChar t.day, ' ',
     digitChar (t.hour / 10), digitChar t.hour, ':',
     digitChar (t.minute / 10), digitChar t.minute, ':',
     digitChar (t.second / 10), digitChar t.second]

/-- A string has the shape `YYYY-MM-DD HH:MM:SS`: exactly 19 characters with
digits and the fixed separators in the fixed positions. -/
def timestampShape (s : String) : Bool :=
  match s.toList with
  | [y1, y2, y3, y4, d1, mo1, mo2, d2, da1, da2, sp,
     h1, h2, c1, mi1, mi2, c2, se1, se2] =>
    y1.isDigit && y2.isDigit && y3.isDigit && y4.isDigit && d1 == '-' &&
    mo1.isDigit && mo2.isDigit && d2 == '-' && da1.isDigit && da2.isDigit &&
    sp == ' ' && h1.isDigit && h2.isDigit && c1 == ':' &&
    mi1.isDigit && mi2.isDigit && c2 == ':' && se1.isDigit && se2.isDigit
  | _ => false

/-- The field ranges within which the `strftime` model is faithful; every
value of `time.localtime` satisfies them. -/
abbrev ValidTime (t : Timestamp) : Prop :=
  t.year ≤ 9999 ∧ t.month ≤ 99 ∧ t.day ≤ 99 ∧
    t.hour ≤ 99 ∧ t.minute ≤ 99 ∧ t.second ≤ 99

/- ## Data model of one category run -/

/-- The `metadata` object written into each output document. -/
structure Metadata where
  source_file : String
  generation_time : String
  total_articles : Nat
deriving DecidableEq

/-- The output document `{'metadata': ..., 'articles': ...}`.  Processed
articles are opaque to the orchestrator, hence the type parameter. -/
structure OutputData (Art : Type) where
  metadata : Metadata
  articles : List Art
deriving DecidableEq

/-- The option strings `setup_shared_browser` adds to the Chrome options, in
source order; the last two are appended only in headless mode. -/
def browserOptions (headless : Bool) : List String :=
  ["--no-sandbox", "--disable-dev-shm-usage", "--disable-extensions",
   "--disable-popup-blocking", "--disable-notifications", "--disable-infobars",
   "--mute-audio", "--disable-plugins", "--disable-background-timer-throttling",
   "--disable-backgrounding-occluded-windows", "--disable-renderer-backgrounding",
   "--disable-features=TranslateUI", "--disable-ipc-flooding-protection",
   "--user-agent=Mozilla/5.0 (Windows NT 10.0; Win64; x64) AppleWebKit/537.36 (KHTML, like Gecko) Chrome/91.0.4472.124 Safari/537.36"]
  ++ (if headless then ["--headless", "--disable-gpu"] else [])

/-- The shared browser session handle: the options it was configured with and
the page-load timeout set on it. -/
structure Browser where
  options : List String
  pageLoadTimeout : Nat
deriving DecidableEq

/-- The browser `setup_shared_browser headless` constructs when Chrome starts
successfully: configured options plus `driver.set_page_load_timeout(20)`. -/
def mkBrowser (headless : Bool) : Browser :=
  { options := browserOptions headless, pageLoadTimeout := 20 }

/-- `setup_shared_browser(headless)`: the whole body sits in a `try` whose
handler logs and re-raises, so a startup failure (modelled by the
`startOutcome` argument) propagates to the caller unchanged; on success the
configured driver with page-load timeout 20 is returned. -/
def setup_shared_browser {E : Type} (headless : Bool) (startOutcome : Except E Unit) :
    Except E Browser :=
  match startOutcome with
  | Except.error e => Except.error e
  | Except.ok _ => Except.ok (mkBrowser headless)

/-- Outcomes of every external call one invocation of
`process_category_with_shared_browser` can make.  `inputExists` is
`os.path.exists(input_file)`; `makedirs` is `os.makedirs(output_dir,
exist_ok=True)` (which sits before the `try` block); `importMod` is the
dynamic import of `generate_inshorts_selenium`; `loadNews` is
`load_news_data(input_file)`; `summarize` is the per-article summarizer the
collaborator invokes; `save` is `save_to_json(output_data, output_file)`;
`now` is the local time at formatting. -/
structure CatEffects (E Item Art : Type) where
  inputExists : Bool
  makedirs : Except E Unit
  importMod : Except E Unit
  loadNews : Except E (List Item)
  summarize : Browser → Item → Nat → Nat → Art
  save : OutputData Art → Except E Unit
  now : Timestamp

/-- Modelled from the spec: `process_news_data` is defined in
`generate_inshorts_selenium.py`, which is not among the sources; per §4.3
step 4 it invokes the Article Summarizer once per news item, up to
`max_articles` items, passing the shared session, the timeout and the
summary length, and items beyond `max_articles` are silently not
processed. -/
def process_news_data {Item Art : Type} (summarize : Browser → Item → Nat → Nat → Art)
    (news_data : List Item) (max_articles : Nat) (driver : Browser)
    (timeout summary_length : Nat) : List Art :=
  (news_data.take max_articles).map (fun item => summarize driver item timeout summary_length)

/-- `process_category_with_shared_browser(category, input_dir, output_dir,
max_articles, timeout, summary_length, driver)`.  A missing input file warns
and returns `False`; `os.makedirs` runs before the `try` block, so its
failure propagates (`Except.error`); inside the `try`, a failure of the
import, the load, or the save is caught and the function returns `False`;
otherwise the output document is assembled, saved, and `True` returned.  The
result carries the saved document so its contents can be inspected. -/
def process_category_with_shared_browser {E Item Art : Type} (eff : CatEffects E Item Art)
    (category input_dir output_dir : String) (max_articles timeout summary_length : Nat)
    (driver : Browser) : Except E (Bool × Option (OutputData Art)) :=
  let input_file := joinPath input_dir ("news_" ++ category ++ ".json")
  let _output_file := joinPath output_dir ("inshorts_" ++ category ++ ".json")
  if eff.inputExists = false then Except.ok (false, none)
  else
    match eff.makedirs with
    | Except.error e => Except.error e
    | Except.ok _ =>
      match eff.importMod with
      | Except.error _ => Except.ok (false, none)
      | Except.ok _ =>
        match eff.loadNews with
        | Except.error _ => Except.ok (false, none)
        | Except.ok news_data =>
          let processed_articles :=
            process_news_data eff.summarize news_data max_articles driver timeout summary_length
          let output_data : OutputData Art :=
            { metadata :=
                { source_file := input_file,
                  generation_time := strftime_YmdHMS eff.now,
                  total_articles := processed_articles.length },
              articles := processed_articles }
          match eff.save output_data with
          | Except.error _ => Except.ok (false, none)
          | Except.ok _ => Except.ok (true, some output_data)

/- ## Command line -/

/-- The flags present on a command line accepted by the argument parser:
`none` means the flag was not supplied and the parser default applies;
`headlessFlag` records whether `--headless` was passed. -/
structure CmdLine where
  inputDirArg : Option String
  outputDirArg : Option String
  maxArticlesArg : Option Nat
  timeoutArg : Option Nat
  summaryLengthArg : Option Nat
  headlessFlag : Bool
  categoriesArg : Option (List String)

/-- The parsed configuration returned by `parse_args`. -/
structure Config where
  input_dir : String
  output_dir : String
  max_articles : Nat
  timeout : Nat
  summary_length : Nat
  headless : Bool
  categories : Option (List String)

/-- argparse `action="store_true"`: the stored value is `True` when the flag
is present and the declared default when absent. -/
def storeTrue (present dflt : Bool) : Bool :=
  if present then true else dflt

/-- `parse_args`: defaults `data`, `data/inshorts`, 20, 10, 60; the
`--headless` flag is `store_true` with `default=True`. -/
def parse_args (cl : CmdLine) : Config :=
  { input_dir := cl.inputDirArg.getD "data",
    output_dir := cl.outputDirArg.getD "data/inshorts",
    max_articles := cl.maxArticlesArg.getD 20,
    timeout := cl.timeoutArg.getD 10,
    summary_length := cl.summaryLengthArg.getD 60,
    headless := storeTrue cl.headlessFlag true,
    categories := cl.categoriesArg }

/- ## The run orchestrator -/

/-- Everything external a whole run can observe: the input-directory listing
used by category discovery, the outcome of browser startup, and the external
outcomes seen by the i-th invocation of the category processor. -/
structure RunWorld (E Item Art : Type) where
  inputListing : List String
  startOutcome : Except E Unit
  catEffects : Nat → CatEffects E Item Art

/-- Observable lifecycle events of one run: an invocation of the category
processor, and `driver.quit()`. -/
inductive Event where
  | proc (category : String)
  | quit
deriving DecidableEq

/-- Category-list resolution in `main`: `if args.categories:` uses Python
truthiness, so an absent — or empty — override falls back to discovery. -/
def resolveCategories {E Item Art : Type} (cfg : Config) (w : RunWorld E Item Art) :
    List String :=
  match cfg.categories with
  | some cs => if cs.isEmpty then get_available_categories w.inputListing else cs
  | none => get_available_categories w.inputListing

/-- The i-th category-processor invocation of a run, with the arguments
`main` passes. -/
def catInvoke {E Item Art : Type} (cfg : Config) (w : RunWorld E Item Art)
    (driver : Browser) (i : Nat) (c : String) : Except E (Bool × Option (OutputData Art)) :=
  process_category_with_shared_browser (w.catEffects i) c cfg.input_dir cfg.output_dir
    cfg.max_articles cfg.timeout cfg.summary_length driver

/-- The `for category in categories:` loop of `main`, invocation index `i`:
counts successes, records one `proc` event per invocation, and stops with the
exception if an invocation raises (the count accumulated so far is then
discarded, exactly as in the source). -/
def runCategories {E Item Art : Type} (cfg : Config) (w : RunWorld E Item Art)
    (driver : Browser) (i : Nat) : List String → Except E Nat × List Event
  | [] => (Except.ok 0, [])
  | c :: rest =>
    match catInvoke cfg w driver i c with
    | Except.error e => (Except.error e, [Event.proc c])
    | Except.ok (b, _) =>
      let p := runCategories cfg w driver (i + 1) rest
      ((p.1).map (fun n => (if b then 1 else 0) + n), Event.proc c :: p.2)

/-- `main()`: resolve the category list (empty list returns 1 from inside the
top-level `try`), acquire the shared browser (a startup failure propagates to
the top-level handler, which returns 1), run the loop inside
`try ... finally: driver.quit()`, and return 0 iff every category succeeded;
an exception escaping the loop is caught by the top-level handler after the
`finally` has quit the browser.  Returns the exit code and the event trace.
(Named `mainFn` because Lean reserves `main` for executable entry points.) -/
def mainFn {E Item Art : Type} (cfg : Config) (w : RunWorld E Item Art) :
    Nat × List Event :=
  let categories := resolveCategories cfg w
  if categories.isEmpty then (1, [])
  else
    match setup_shared_browser cfg.headless w.startOutcome with
    | Except.error _ => (1, [])
    | Except.ok driver =>
      let p := runCategories cfg w driver 0 categories
      match p.1 with
      | Except.ok success_count =>
        ((if success_count = categories.length then 0 else 1), p.2 ++ [Event.quit])
      | Except.error _ => (1, p.2 ++ [Event.quit])

/- ## Concrete instantiations used to witness the theorems -/

/-- A category-processing environment in which every external call succeeds:
two news items, a summarizer that adds 100 to an item id. -/
def effOkW : CatEffects Unit Nat Nat :=
  { inputExists := true, makedirs := Except.ok (), importMod := Except.ok (),
    loadNews := Except.ok [7, 8], summarize := fun _ it _ _ => it + 100,
    save := fun _ => Except.ok (), now := ⟨2025, 1, 2, 3, 4, 5⟩ }

/-- Like `effOkW`, but `os.makedirs` fails. -/
def effBadW : CatEffects Unit Nat Nat :=
  { effOkW with makedirs := Except.error () }

/-- A parsed configuration with all defaults and two explicit categories. -/
def cfgW : Config :=
  { input_dir := "data", output_dir := "data/inshorts", max_articles := 20,
    timeout := 10, summary_length := 60, headless := true,
    categories := some ["sports", "tech"] }

/-- A run world in which everything succeeds. -/
def wOkW : RunWorld Unit Nat Nat :=
  { inputListing := [], startOutcome := Except.ok (), catEffects := fun _ => effOkW }

/-- A run world in which browser startup fails. -/
def wFailW : RunWorld Unit Nat Nat :=
  { wOkW with startOutcome := Except.error () }

/-- The output document `effOkW` produces for the category `sports`. -/
def outW : OutputData Nat :=
  OutputData.mk (Metadata.mk "data/news_sports.json" "2025-01-02 03:04:05" 2) [107, 108]

/-- An empty command line: every flag absent. -/
def clW : CmdLine :=
  { inputDirArg := none, outputDirArg := none, maxArticlesArg := none,
    timeoutArg := none, summaryLengthArg := none, headlessFlag := false,
    categoriesArg := none }

/- ## Lemmas about the string scan -/

theorem startsWithL_iff (p : List Char) : ∀ l, startsWithL p l = true ↔ ∃ t, p ++ t = l := by
  induction p with
  | nil =>
    intro l
    simp [startsWithL]
  | cons a ps ih =>
    intro l
    cases l with
    | nil =>
      simp [startsWithL]
    | cons c cs =>
      simp only [startsWithL, Bool.and_eq_true, beq_iff_eq, ih]
      constructor
      · rintro ⟨rfl, t, rfl⟩
        exact ⟨t, rfl⟩
      · rintro ⟨t, ht⟩
        cases ht
        exact ⟨rfl, t, rfl⟩

theorem startsWithL_self_append (p t : List Char) : startsWithL p (p ++ t) = true :=
  (startsWithL_iff p (p ++ t)).mpr ⟨t, rfl⟩

theorem startsWithL_of_append_left {p a b : List Char}
    (h : startsWithL p (a ++ b) = true) (hlen : p.length ≤ a.length) :
    startsWithL p a = true := by
  obtain ⟨t, ht⟩ := (startsWithL_iff p (a ++ b)).mp h
  have hp : p = a.take p.length := by
    have h1 : (p ++ t).take p.length = p := List.take_left p t
    have h2 : (a ++ b).take p.length = a.take p.length := by
      rw [List.take_append_eq_append_take, Nat.sub_eq_zero_of_le hlen, List.take_zero,
        List.append_nil]
    rw [ht] at h1
    rw [h2] at h1
    exact h1.symm
  refine (startsWithL_iff p a).mpr ⟨a.drop p.length, ?_⟩
  calc p ++ a.drop p.length = a.take p.length ++ a.drop p.length := by rw [← hp]
    _ = a := List.take_append_drop _ _

theorem startsWithL_drop_of_append {p a b : List Char}
    (h : startsWithL p (a ++ b) = true) (hlen : a.length < p.length) :
    startsWithL (p.drop a.length) b = true := by
  obtain ⟨t, ht⟩ := (startsWithL_iff p (a ++ b)).mp h
  refine (startsWithL_iff _ b).mpr ⟨t, ?_⟩
  have h1 : (p ++ t).drop a.length = p.drop a.length ++ t := by
    rw [List.drop_append_eq_append_drop, Nat.sub_eq_zero_of_le (Nat.le_of_lt hlen),
      List.drop_zero]
  have h2 : (a ++ b).drop a.length = b := List.drop_left a b
  rw [ht] at h1
  rw [h2] at h1
  exact h1.symm

theorem occursInB_of_startsWithL {p l : List Char} (h : startsWithL p l = true) :
    occursInB p l = true := by
  cases l with
  | nil => exact h
  | cons c cs => simp [occursInB, h]

theorem occursInB_cons_false {p : List Char} {c : Char} {cs : List Char}
    (h : occursInB p (c :: cs) = false) :
    startsWithL p (c :: cs) = false ∧ occursInB p cs = false := by
  simpa [occursInB] using h

/-- An occurrence of `p` in `a ++ b` is inside `a`, inside `b`, or straddles
the boundary, in which case a nonempty tail `p.drop k` of `p` begins `b`. -/
theorem occursInB_append_false (p : List Char)
    (hcross : ∀ k, k < p.length → 1 ≤ k → startsWithL (p.drop k) b = false) :
    ∀ a, occursInB p a = false → occursInB p b = false → occursInB p (a ++ b) = false := by
  intro a
  induction a with
  | nil =>
    intro _ hb
    simpa using hb
  | cons x a' ih =>
    intro ha hb
    obtain ⟨hsw, htl⟩ := occursInB_cons_false ha
    have hrec : occursInB p (a' ++ b) = false := ih htl hb
    show occursInB p ((x :: a') ++ b) = false
    simp only [List.cons_append, occursInB, Bool.or_eq_false_iff]
    refine ⟨?_, hrec⟩
    by_contra hne
    have hswx : startsWithL p ((x :: a') ++ b) = true := by
      simpa using Bool.of_not_eq_false hne
    by_cases hlen : p.length ≤ (x :: a').length
    · have := startsWithL_of_append_left hswx hlen
      rw [hsw] at this
      exact Bool.noConfusion this
    · push_neg at hlen
      have hk := startsWithL_drop_of_append hswx hlen
      have := hcross (x :: a').length hlen (Nat.succ_le_succ (Nat.zero_le _))
      rw [this] at hk
      exact Bool.noConfusion hk

theorem replaceAllGo_nil (pat repl : List Char) : ∀ f, replaceAllGo pat repl f [] = [] := by
  intro f
  cases f <;> rfl

theorem replaceAllGo_fuel (pat repl : List Char) :
    ∀ (f1 : Nat) (s : List Char) (f2 : Nat), s.length ≤ f1 → s.length ≤ f2 →
      replaceAllGo pat repl f1 s = replaceAllGo pat repl f2 s := by
  intro f1
  induction f1 with
  | zero =>
    intro s f2 h1 _
    have : s = [] := List.eq_nil_of_length_eq_zero (Nat.le_zero.mp h1)
    subst this
    rw [replaceAllGo_nil, replaceAllGo_nil]
  | succ f ih =>
    intro s f2 h1 h2
    cases s with
    | nil => rw [replaceAllGo_nil, replaceAllGo_nil]
    | cons c cs =>
      cases f2 with
      | zero => exact absurd h2 (by simp)
      | succ g =>
        simp only [replaceAllGo]
        split
        · next hcond =>
          have hple : 1 ≤ pat.length :=
            Nat.succ_le_of_lt (List.length_pos.mpr hcond.2)
          have hd : ((c :: cs).drop pat.length).length ≤ f := by
            simp only [List.length_drop, List.length_cons]
            simp only [List.length_cons] at h1
            omega
          have hd2 : ((c :: cs).drop pat.length).length ≤ g := by
            simp only [List.length_drop, List.length_cons]
            simp only [List.length_cons] at h2
            omega
          rw [ih _ _ hd hd2]
        · have hc1 : cs.length ≤ f := by
            simp only [List.length_cons] at h1
            omega
          have hc2 : cs.length ≤ g := by
            simp only [List.length_cons] at h2
            omega
          rw [ih _ _ hc1 hc2]

theorem replaceAll_cons_pos {pat : List Char} {c : Char} {cs : List Char} (repl : List Char)
    (h1 : startsWithL pat (c :: cs) = true) (h2 : pat ≠ []) :
    replaceAll pat repl (c :: cs) = repl ++ replaceAll pat repl ((c :: cs).drop pat.length) := by
  show replaceAllGo pat repl (c :: cs).length (c :: cs) = _
  simp only [List.length_cons, replaceAllGo, if_pos (And.intro h1 h2)]
  congr 1
  apply replaceAllGo_fuel
  · have hple : 1 ≤ pat.length := Nat.succ_le_of_lt (List.length_pos.mpr h2)
    simp only [List.length_drop, List.length_cons]
    omega
  · exact Nat.le_refl _

theorem replaceAll_cons_neg {pat : List Char} {c : Char} {cs : List Char} (repl : List Char)
    (h : ¬(startsWithL pat (c :: cs) = true ∧ pat ≠ [])) :
    replaceAll pat repl (c :: cs) = c :: replaceAll pat repl cs := by
  show replaceAllGo pat repl (c :: cs).length (c :: cs) = _
  simp only [List.length_cons, replaceAllGo, if_neg h]
  rfl

theorem replaceAll_of_not_occurs {pat : List Char} (repl : List Char) :
    ∀ s, occursInB pat s = false → replaceAll pat repl s = s := by
  intro s
  induction s with
  | nil => intro _; rfl
  | cons c cs ih =>
    intro h
    obtain ⟨hsw, htl⟩ := occursInB_cons_false h
    rw [replaceAll_cons_neg repl (by simp [hsw]), ih htl]

theorem replaceAll_head_match {pat : List Char} (repl rest : List Char) (hne : pat ≠ []) :
    replaceAll pat repl (pat ++ rest) = repl ++ replaceAll pat repl rest := by
  cases hp : pat with
  | nil => exact absurd hp hne
  | cons q qs =>
    subst hp
    have hsw : startsWithL (q :: qs) ((q :: qs) ++ rest) = true :=
      startsWithL_self_append _ _
    have hca : (q :: qs) ++ rest = q :: (qs ++ rest) := List.cons_append q qs rest
    rw [hca] at hsw
    rw [hca, replaceAll_cons_pos repl hsw (by simp)]
    congr 1
    rw [← hca, List.drop_left]

/-- Removing every occurrence of `pat` from `c ++ pat` yields `c`, provided
`pat` does not occur in `c` and no nonempty proper tail of `pat` is also a
head of `pat` (true of `.json` and `news_`). -/
theorem replaceAll_strip_tail (pat : List Char) (hne : pat ≠ [])
    (hov : ∀ k, k < pat.length → 1 ≤ k → startsWithL (pat.drop k) pat = false) :
    ∀ c, occursInB pat c = false → replaceAll pat [] (c ++ pat) = c := by
  intro c
  induction c with
  | nil =>
    intro _
    have : replaceAll pat [] (pat ++ []) = [] ++ replaceAll pat [] [] :=
      replaceAll_head_match [] [] hne
    simpa using this
  | cons x c' ih =>
    intro h
    obtain ⟨hsw, htl⟩ := occursInB_cons_false h
    have hcond : ¬(startsWithL pat (x :: (c' ++ pat)) = true ∧ pat ≠ []) := by
      rintro ⟨hswx, -⟩
      have hswx' : startsWithL pat ((x :: c') ++ pat) = true := by simpa using hswx
      by_cases hlen : pat.length ≤ (x :: c').length
      · have := startsWithL_of_append_left hswx' hlen
        rw [hsw] at this
        exact Bool.noConfusion this
      · push_neg at hlen
        have hk := startsWithL_drop_of_append hswx' hlen
        have := hov (x :: c').length hlen (Nat.succ_le_succ (Nat.zero_le _))
        rw [this] at hk
        exact Bool.noConfusion hk
    rw [List.cons_append, replaceAll_cons_neg [] hcond, ih htl]

/-- The two-pass removal of `news_` and `.json` performed by
`get_available_categories` coincides with stripping the prefix and suffix
whenever the category part contains neither literal. -/
theorem extractCategory_clean (c : List Char)
    (h1 : occursInB patNews c = false) (h2 : occursInB patJson c = false) :
    extractCategory (patNews ++ c ++ patJson) = c := by
  unfold extractCategory
  have hA : replaceAll patNews [] (patNews ++ c ++ patJson) = c ++ patJson := by
    rw [List.append_assoc, replaceAll_head_match [] (c ++ patJson) (by decide),
      List.nil_append]
    refine replaceAll_of_not_occurs [] _ ?_
    refine occursInB_append_false patNews (by decide) c h1 (by decide)
  rw [hA]
  exact replaceAll_strip_tail patJson (by decide) (by decide) c h2

/- ## String bridging lemmas -/

theorem toList_mk (l : List Char) : (String.mk l).toList = l := rfl

theorem mk_toList (s : String) : String.mk s.toList = s := by
  cases s
  rfl

theorem toList_append (a b : String) : (a ++ b).toList = a.toList ++ b.toList := rfl

/- ## Timestamp shape -/

theorem digitChar_isDigit (d : Nat) : (digitChar d).isDigit = true := by
  unfold digitChar
  have h : d % 10 < 10 := Nat.mod_lt _ (by omega)
  set r := d % 10 with hr
  interval_cases r <;> decide

theorem strftime_shape (t : Timestamp) : timestampShape (strftime_YmdHMS t) = true := by
  simp [timestampShape, strftime_YmdHMS, digitChar_isDigit]

/- ## Lemmas about the category loop -/

theorem runCategories_count_quit {E Item Art : Type} (cfg : Config) (w : RunWorld E Item Art)
    (driver : Browser) :
    ∀ (cats : List String) (i : Nat),
      ((runCategories cfg w driver i cats).2).count Event.quit = 0 := by
  intro cats
  induction cats with
  | nil => intro i; rfl
  | cons c rest ih =>
    intro i
    simp only [runCategories]
    cases h : catInvoke cfg w driver i c with
    | error e => simp [List.count_cons]
    | ok br =>
      rcases br with ⟨b, r⟩
      simp [List.count_cons, ih (i + 1)]

theorem runCategories_le {E Item Art : Type} (cfg : Config) (w : RunWorld E Item Art)
    (driver : Browser) :
    ∀ (cats : List String) (i n : Nat),
      (runCategories cfg w driver i cats).1 = Except.ok n → n ≤ cats.length := by
  intro cats
  induction cats with
  | nil =>
    intro i n h
    simp only [runCategories] at h
    cases h
    exact Nat.zero_le _
  | cons c rest ih =>
    intro i n h
    simp only [runCategories] at h
    cases hc : catInvoke cfg w driver i c with
    | error e => rw [hc] at h; exact absurd h (by simp)
    | ok br =>
      rcases br with ⟨b, r⟩
      rw [hc] at h
      dsimp only at h
      cases hr : (runCategories cfg w driver (i + 1) rest).1 with
      | error e => rw [hr] at h; exact absurd h (by simp [Except.map])
      | ok m =>
        rw [hr] at h
        simp only [Except.map, Except.ok.injEq] at h
        have hm := ih (i + 1) m hr
        simp only [List.length_cons]
        cases b <;> simp at h <;> omega

theorem runCategories_full_iff {E Item Art : Type} (cfg : Config) (w : RunWorld E Item Art)
    (driver : Browser) :
    ∀ (cats : List String) (i : Nat),
      (runCategories cfg w driver i cats).1 = Except.ok cats.length ↔
        ∀ j (hj : j < cats.length), ∃ out,
          catInvoke cfg w driver (i + j) (cats.get ⟨j, hj⟩) = Except.ok (true, out) := by
  intro cats
  induction cats with
  | nil =>
    intro i
    constructor
    · intro _ j hj
      exact absurd hj (Nat.not_lt_zero j)
    · intro _
      rfl
  | cons c rest ih =>
    intro i
    have hshift : ∀ (hall : ∀ j (hj : j < (c :: rest).length), ∃ out,
        catInvoke cfg w driver (i + j) ((c :: rest).get ⟨j, hj⟩) = Except.ok (true, out)),
        ∀ j (hj : j < rest.length), ∃ out,
          catInvoke cfg w driver (i + 1 + j) (rest.get ⟨j, hj⟩) = Except.ok (true, out) := by
      intro hall j hj
      obtain ⟨out, hout⟩ := hall (j + 1) (Nat.succ_lt_succ hj)
      refine ⟨out, ?_⟩
      have hout' : catInvoke cfg w driver (i + (j + 1)) (rest.get ⟨j, hj⟩) =
          Except.ok (true, out) := hout
      rw [show i + (j + 1) = i + 1 + j by omega] at hout'
      exact hout'
    simp only [runCategories]
    cases hc : catInvoke cfg w driver i c with
    | error e =>
      constructor
      · intro h
        exact absurd h (by simp)
      · intro hall
        obtain ⟨out, hout⟩ := hall 0 (Nat.succ_pos _)
        have hout' : catInvoke cfg w driver i c = Except.ok (true, out) := hout
        rw [hc] at hout'
        exact absurd hout' (by simp)
    | ok br =>
      rcases br with ⟨b, r⟩
      dsimp only
      cases hr : (runCategories cfg w driver (i + 1) rest).1 with
      | error e =>
        constructor
        · intro h
          exact absurd h (by simp [Except.map])
        · intro hall
          have hiff := (ih (i + 1)).mpr (hshift hall)
          rw [hr] at hiff
          exact absurd hiff (by simp)
      | ok m =>
        cases b with
        | false =>
          constructor
          · intro h
            simp [Except.map] at h
            have hm := runCategories_le cfg w driver rest (i + 1) m hr
            omega
          · intro hall
            obtain ⟨out, hout⟩ := hall 0 (Nat.succ_pos _)
            have hout' : catInvoke cfg w driver i c = Except.ok (true, out) := hout
            rw [hc] at hout'
            simp at hout'
        | true =>
          have hiff := ih (i + 1)
          rw [hr] at hiff
          constructor
          · intro h
            simp [Except.map] at h
            have hm : m = rest.length := by omega
            have htail := hiff.mp (by rw [hm])
            intro j hj
            cases j with
            | zero =>
              refine ⟨r, ?_⟩
              show catInvoke cfg w driver (i + 0) c = Except.ok (true, r)
              rw [Nat.add_zero, hc]
            | succ j' =>
              have hj' : j' < rest.length := Nat.lt_of_succ_lt_succ hj
              obtain ⟨out, hout⟩ := htail j' hj'
              refine ⟨out, ?_⟩
              show catInvoke cfg w driver (i + (j' + 1)) (rest.get ⟨j', hj'⟩) =
                Except.ok (true, out)
              rw [show i + (j' + 1) = i + 1 + j' by omega]
              exact hout
          · intro hall
            have hok := hiff.mpr (hshift hall)
            have hm : m = rest.length := by injection hok
            subst hm
            simp [Except.map, Nat.one_add]

theorem runCategories_events_of_total {E Item Art : Type} (cfg : Config)
    (w : RunWorld E Item Art) (driver : Browser)
    (hall : ∀ (i : Nat) (c : String), ∃ r, catInvoke cfg w driver i c = Except.ok r) :
    ∀ (cats : List String) (i : Nat),
      (runCategories cfg w driver i cats).2 = cats.map Event.proc := by
  intro cats
  induction cats with
  | nil => intro i; rfl
  | cons c rest ih =>
    intro i
    simp only [runCategories]
    obtain ⟨r, hr⟩ := hall i c
    rw [hr]
    rcases r with ⟨b, o⟩
    simp [ih (i + 1)]

/- ## Inversion of a successful category run -/

theorem process_category_ok_true {E Item Art : Type} {eff : CatEffects E Item Art}
    {category input_dir output_dir : String} {max_articles timeout summary_length : Nat}
    {driver : Browser} {o : Option (OutputData Art)}
    (h : process_category_with_shared_browser eff category input_dir output_dir
      max_articles timeout summary_length driver = Except.ok (true, o)) :
    ∃ news_data, eff.loadNews = Except.ok news_data ∧
      o = some
        { metadata :=
            { source_file := joinPath input_dir ("news_" ++ category ++ ".json"),
              generation_time := strftime_YmdHMS eff.now,
              total_articles := (process_news_data eff.summarize news_data max_articles
                driver timeout summary_length).length },
          articles := process_news_data eff.summarize news_data max_articles
            driver timeout summary_length } := by
  unfold process_category_with_shared_browser at h
  dsimp only at h
  split at h
  · simp at h
  · split at h
    · simp at h
    · split at h
      · simp at h
      · split at h
        · simp at h
        · next news_data heq =>
          refine ⟨news_data, heq, ?_⟩
          split at h
          · simp at h
          · simp only [Except.ok.injEq, Prod.mk.injEq] at h
            exact h.2.symm

/- ## Characterizing the run paths of mainFn -/

theorem mainFn_empty {E Item Art : Type} (cfg : Config) (w : RunWorld E Item Art)
    (h : resolveCategories cfg w = []) : mainFn cfg w = (1, []) := by
  unfold mainFn
  rw [h]
  rfl

theorem mainFn_start_error {E Item Art : Type} (cfg : Config) (w : RunWorld E Item Art)
    (e : E) (hfail : w.startOutcome = Except.error e) : mainFn cfg w = (1, []) := by
  unfold mainFn
  rw [hfail]
  dsimp only [setup_shared_browser]
  split <;> rfl

theorem mainFn_ok_run {E Item Art : Type} (cfg : Config) (w : RunWorld E Item Art)
    (hne : (resolveCategories cfg w).isEmpty = false)
    (hstart : w.startOutcome = Except.ok ()) :
    mainFn cfg w =
      ((match (runCategories cfg w (mkBrowser cfg.headless) 0 (resolveCategories cfg w)).1 with
        | Except.ok s => if s = (resolveCategories cfg w).length then 0 else 1
        | Except.error _ => 1),
       (runCategories cfg w (mkBrowser cfg.headless) 0 (resolveCategories cfg w)).2
         ++ [Event.quit]) := by
  unfold mainFn
  rw [hstart]
  dsimp only [setup_shared_browser]
  split
  · next hie => rw [hne] at hie; exact absurd hie (by simp)
  · cases hr : (runCategories cfg w (mkBrowser cfg.headless) 0 (resolveCategories cfg w)).1
      <;> rfl

/- ## Lemmas for category discovery on well-formed names -/

theorem toList_news_json (c : String) :
    ("news_" ++ c ++ ".json").toList = patNews ++ c.toList ++ patJson := rfl

theorem globMatch_news_json (c : String) :
    globMatch (("news_" ++ c ++ ".json").toList) = true := by
  rw [toList_news_json]
  unfold globMatch
  have h1 : startsWithL patNews (patNews ++ c.toList ++ patJson) = true := by
    rw [List.append_assoc]
    exact startsWithL_self_append _ _
  have h2 : endsWithL patJson (patNews ++ c.toList ++ patJson) = true := by
    unfold endsWithL
    rw [List.reverse_append]
    exact startsWithL_self_append _ _
  have h3 : 10 ≤ (patNews ++ c.toList ++ patJson).length := by
    simp [List.length_append, patNews, patJson]
  simp only [Bool.and_eq_true, decide_eq_true_eq]
  exact ⟨⟨h1, h2⟩, h3⟩

/- ## Claim theorems -/

/-- Claim C1: in every run in which the browser session is successfully
acquired (nonempty category list, startup succeeded), the trace of the run
ends with exactly one `driver.quit()` event, emitted before the result is
reported, on every exit path of category processing — both when the loop
completes normally and when an invocation raises. -/
theorem c1_quit_exactly_once {E Item Art : Type} (cfg : Config) (w : RunWorld E Item Art)
    (hne : resolveCategories cfg w ≠ [])
    (hstart : w.startOutcome = Except.ok ()) :
    ∃ evs, (mainFn cfg w).2 = evs ++ [Event.quit] ∧ evs.count Event.quit = 0 := by
  have hie : (resolveCategories cfg w).isEmpty = false := by
    cases hcats : resolveCategories cfg w with
    | nil => exact absurd hcats hne
    | cons a l => rfl
  rw [mainFn_ok_run cfg w hie hstart]
  exact ⟨(runCategories cfg w (mkBrowser cfg.headless) 0 (resolveCategories cfg w)).2,
    rfl, runCategories_count_quit cfg w (mkBrowser cfg.headless) _ 0⟩

/-- Witness for C1: a concrete all-successful run with two categories. -/
theorem c1_witness :
    ∃ evs, (mainFn cfgW wOkW).2 = evs ++ [Event.quit] ∧ evs.count Event.quit = 0 :=
  c1_quit_exactly_once cfgW wOkW (by decide) rfl

/-- Claim C2: if browser-session startup fails, the run processes zero
categories (the trace is empty, so the category processor is never invoked)
and exits with code 1. -/
theorem c2_start_failure_aborts {E Item Art : Type} (cfg : Config) (w : RunWorld E Item Art)
    (e : E) (hfail : w.startOutcome = Except.error e) :
    mainFn cfg w = (1, []) :=
  mainFn_start_error cfg w e hfail

/-- Witness for C2: a concrete run whose browser startup fails. -/
theorem c2_witness : mainFn cfgW wFailW = (1, []) :=
  c2_start_failure_aborts cfgW wFailW () rfl

/-- Counterexample to claim C3 as stated: the claim says no exception
arising while processing a category ever propagates to the caller, but
`os.makedirs(output_dir, exist_ok=True)` runs before the `try` block, so its
failure (here injected via `effBadW`) escapes the category processor instead
of being turned into `False`. -/
theorem c3_counterexample :
    process_category_with_shared_browser effBadW "sports" "data" "data/inshorts"
      20 10 60 (mkBrowser true) = Except.error () := rfl

/-- Claim C3 (amended): any exception raised inside the guarded `try` block
(dynamic import, input load, summarization, output save) is caught, logged,
and turned into a `False` return — the caller sees only a boolean; but the
directory-creation step precedes the guard, so when the input file exists a
`makedirs` failure does propagate.  Hence: whenever `makedirs` succeeds, the
processor never raises. -/
theorem c3_guarded_never_raises {E Item Art : Type} (eff : CatEffects E Item Art)
    (category input_dir output_dir : String) (max_articles timeout summary_length : Nat)
    (driver : Browser) (hmk : eff.makedirs = Except.ok ()) :
    ∃ r, process_category_with_shared_browser eff category input_dir output_dir
      max_articles timeout summary_length driver = Except.ok r := by
  unfold process_category_with_shared_browser
  dsimp only
  split
  · exact ⟨(false, none), rfl⟩
  · rw [hmk]
    dsimp only
    split
    · exact ⟨(false, none), rfl⟩
    · split
      · exact ⟨(false, none), rfl⟩
      · split
        · exact ⟨(false, none), rfl⟩
        · exact ⟨_, rfl⟩

/-- Witness for C3 (amended): the all-successful environment. -/
theorem c3_witness :
    ∃ r, process_category_with_shared_browser effOkW "sports" "data" "data/inshorts"
      20 10 60 (mkBrowser true) = Except.ok r :=
  c3_guarded_never_raises effOkW "sports" "data" "data/inshorts" 20 10 60
    (mkBrowser true) rfl

/-- Claim C4: the exit code is always 0 or 1, and it is 0 exactly when the
resolved category list is nonempty, browser startup succeeded, and every
invocation of the category processor returned `True`; otherwise (empty list,
startup failure, a `False` category, or an exception escaping the loop) it
is 1. -/
theorem c4_exit_code {E Item Art : Type} (cfg : Config) (w : RunWorld E Item Art) :
    ((mainFn cfg w).1 = 0 ∨ (mainFn cfg w).1 = 1) ∧
    ((mainFn cfg w).1 = 0 ↔
      resolveCategories cfg w ≠ [] ∧ w.startOutcome = Except.ok () ∧
      ∀ i (hi : i < (resolveCategories cfg w).length), ∃ out,
        catInvoke cfg w (mkBrowser cfg.headless) i
          ((resolveCategories cfg w).get ⟨i, hi⟩) = Except.ok (true, out)) := by
  cases hie : (resolveCategories cfg w).isEmpty with
  | true =>
    have hnil : resolveCategories cfg w = [] := by simpa using hie
    rw [mainFn_empty cfg w hnil]
    constructor
    · right; rfl
    · simp [hnil]
  | false =>
    have hne : resolveCategories cfg w ≠ [] := by
      intro hnil
      rw [hnil] at hie
      exact absurd hie (by simp)
    cases hso : w.startOutcome with
    | error e =>
      rw [mainFn_start_error cfg w e hso]
      constructor
      · right; rfl
      · constructor
        · intro h; exact absurd h (by norm_num)
        · rintro ⟨-, hok, -⟩
          exact absurd hok (by simp)
    | ok u =>
      cases u
      rw [mainFn_ok_run cfg w hie hso]
      have hshift0 : ∀ (P : Nat → Prop), (∀ j, P (0 + j)) ↔ (∀ j, P j) := by
        intro P
        constructor
        · intro h j; have := h j; rwa [Nat.zero_add] at this
        · intro h j; rw [Nat.zero_add]; exact h j
      cases hr : (runCategories cfg w (mkBrowser cfg.headless) 0 (resolveCategories cfg w)).1 with
      | error e =>
        constructor
        · right; rfl
        · constructor
          · intro h; exact absurd h (by norm_num)
          · rintro ⟨-, -, hall⟩
            have hall0 : ∀ j (hj : j < (resolveCategories cfg w).length), ∃ out,
                catInvoke cfg w (mkBrowser cfg.headless) (0 + j)
                  ((resolveCategories cfg w).get ⟨j, hj⟩) = Except.ok (true, out) := by
              intro j hj
              rw [Nat.zero_add]
              exact hall j hj
            have hfull := (runCategories_full_iff cfg w (mkBrowser cfg.headless)
              (resolveCategories cfg w) 0).mpr hall0
            rw [hr] at hfull
            exact absurd hfull (by simp)
      | ok s =>
        have hfull := runCategories_full_iff cfg w (mkBrowser cfg.headless)
          (resolveCategories cfg w) 0
        rw [hr] at hfull
        constructor
        · dsimp only
          by_cases hs : s = (resolveCategories cfg w).length
          · left; rw [if_pos hs]
          · right; rw [if_neg hs]
        · dsimp only
          constructor
          · intro h
            have hs : s = (resolveCategories cfg w).length := by
              by_contra hs
              rw [if_neg hs] at h
              exact absurd h (by norm_num)
            refine ⟨hne, rfl, ?_⟩
            have := hfull.mp (by rw [hs])
            intro j hj
            have hj' := this j hj
            rwa [Nat.zero_add] at hj'
          · rintro ⟨-, -, hall⟩
            have hall0 : ∀ j (hj : j < (resolveCategories cfg w).length), ∃ out,
                catInvoke cfg w (mkBrowser cfg.headless) (0 + j)
                  ((resolveCategories cfg w).get ⟨j, hj⟩) = Except.ok (true, out) := by
              intro j hj
              rw [Nat.zero_add]
              exact hall j hj
            have := hfull.mpr hall0
            have hs : s = (resolveCategories cfg w).length := by injection this
            rw [if_pos hs]

/-- Witness for C4: the all-successful two-category run exits 0. -/
theorem c4_witness : (mainFn cfgW wOkW).1 = 0 :=
  (c4_exit_code cfgW wOkW).2.mpr
    ⟨by decide, rfl, fun i hi => ⟨_, rfl⟩⟩

/-- Claim C5: when the run reaches the processing loop and no invocation
raises (each returns a boolean, possibly `False`), the category processor is
invoked once per resolved category, in list order, with no short-circuit:
the trace is exactly one `proc` event per category followed by the final
`quit`. -/
theorem c5_all_attempted_in_order {E Item Art : Type} (cfg : Config)
    (w : RunWorld E Item Art)
    (hne : resolveCategories cfg w ≠ [])
    (hstart : w.startOutcome = Except.ok ())
    (htotal : ∀ (i : Nat) (c : String), ∃ r,
      catInvoke cfg w (mkBrowser cfg.headless) i c = Except.ok r) :
    (mainFn cfg w).2 = (resolveCategories cfg w).map Event.proc ++ [Event.quit] := by
  have hie : (resolveCategories cfg w).isEmpty = false := by
    cases hcats : resolveCategories cfg w with
    | nil => exact absurd hcats hne
    | cons a l => rfl
  rw [mainFn_ok_run cfg w hie hstart]
  dsimp only
  rw [runCategories_events_of_total cfg w (mkBrowser cfg.headless) htotal
    (resolveCategories cfg w) 0]

/-- Witness for C5: the concrete two-category run produces one `proc` event
per category, in order, then `quit`. -/
theorem c5_witness :
    (mainFn cfgW wOkW).2 = (resolveCategories cfgW wOkW).map Event.proc ++ [Event.quit] :=
  c5_all_attempted_in_order cfgW wOkW (by decide) rfl (fun i c => ⟨_, rfl⟩)

/-- Counterexample to claim C6 as stated: the claim says each identifier is
derived by stripping the fixed prefix `news_` and the fixed suffix `.json`,
but the source uses `str.replace`, which deletes every occurrence of each
literal.  On the matching filename `news_news_tech.json` the code yields
`tech`, while stripping the prefix and suffix yields `news_tech`. -/
theorem c6_counterexample :
    get_available_categories ["news_news_tech.json"] = ["tech"] ∧
    get_available_categories_specStrip ["news_news_tech.json"] = ["news_tech"] ∧
    ("tech" : String) ≠ "news_tech" := by
  refine ⟨by decide, by decide, by decide⟩

/-- Claim C6 (amended): `get_available_categories` returns exactly the
identifiers of the filenames matching `news_*.json`, each derived by
deleting every occurrence of `news_` and then every occurrence of `.json`
from the filename; this coincides with stripping the fixed prefix and
suffix whenever the category part contains neither literal (a missing or
empty directory is the empty listing and yields the empty list). -/
theorem c6_discovery_strips_clean_names (cs : List String)
    (h1 : ∀ c ∈ cs, occursInB patNews c.toList = false)
    (h2 : ∀ c ∈ cs, occursInB patJson c.toList = false) :
    get_available_categories (cs.map (fun c => "news_" ++ c ++ ".json")) = cs := by
  induction cs with
  | nil => rfl
  | cons c rest ih =>
    have hg := globMatch_news_json c
    have hhead : String.mk (extractCategory (("news_" ++ c ++ ".json").toList)) = c := by
      rw [toList_news_json,
        extractCategory_clean c.toList (h1 c (by simp)) (h2 c (by simp)), mk_toList]
    have htail := ih (fun x hx => h1 x (by simp [hx])) (fun x hx => h2 x (by simp [hx]))
    unfold get_available_categories at htail ⊢
    simp only [List.map_cons, List.filter_cons, hg, if_true, List.map_cons, hhead, htail]

/-- Witness for C6 (amended): two clean category names round-trip through
discovery. -/
theorem c6_witness :
    get_available_categories
      ((["sports", "tech"] : List String).map (fun c => "news_" ++ c ++ ".json"))
      = ["sports", "tech"] :=
  c6_discovery_strips_clean_names ["sports", "tech"] (by decide) (by decide)

/-- Claim C7: for a category whose input document holds `j` news items and a
`max_articles` bound `m`, a successful run of the category processor carries
exactly `min m j` processed articles: the Article Summarizer is invoked once
per item of the truncated list, and items beyond the bound are silently
skipped.  (`process_news_data` is modelled from the spec, as
`generate_inshorts_selenium.py` is not among the sources.) -/
theorem c7_summarizer_invocations {E Item Art : Type} (eff : CatEffects E Item Art)
    (category input_dir output_dir : String) (max_articles timeout summary_length : Nat)
    (driver : Browser) (news_data : List Item) (o : OutputData Art)
    (hload : eff.loadNews = Except.ok news_data)
    (hok : process_category_with_shared_browser eff category input_dir output_dir
      max_articles timeout summary_length driver = Except.ok (true, some o)) :
    o.articles.length = min max_articles news_data.length := by
  obtain ⟨nd, hnd, ho⟩ := process_category_ok_true hok
  rw [hload] at hnd
  injection hnd with hnd'
  subst hnd'
  injection ho with ho'
  subst ho'
  simp [process_news_data, List.length_map, List.length_take]

/-- Witness for C7: two items under a bound of 20 give `min 20 2 = 2`
articles. -/
theorem c7_witness :
    process_category_with_shared_browser effOkW "sports" "data" "data/inshorts"
      20 10 60 (mkBrowser true) = Except.ok (true, some outW) ∧
    outW.articles.length = min 20 ([7, 8] : List Nat).length :=
  ⟨rfl, c7_summarizer_invocations effOkW "sports" "data" "data/inshorts" 20 10 60
    (mkBrowser true) [7, 8] outW rfl rfl⟩

/-- Claim C8: the output record of every successfully processed category
wraps the article list in metadata whose `source_file` is the input path,
whose `generation_time` has the shape `YYYY-MM-DD HH:MM:SS`, and whose
`total_articles` equals the length of the `articles` list of the same
record (the validity hypothesis pins the `strftime` model to the field
ranges `time.localtime` produces). -/
theorem c8_output_metadata {E Item Art : Type} (eff : CatEffects E Item Art)
    (category input_dir output_dir : String) (max_articles timeout summary_length : Nat)
    (driver : Browser) (o : OutputData Art)
    (hok : process_category_with_shared_browser eff category input_dir output_dir
      max_articles timeout summary_length driver = Except.ok (true, some o))
    (_hvalid : ValidTime eff.now) :
    o.metadata.source_file = joinPath input_dir ("news_" ++ category ++ ".json") ∧
    timestampShape o.metadata.generation_time = true ∧
    o.metadata.total_articles = o.articles.length := by
  obtain ⟨nd, hnd, ho⟩ := process_category_ok_true hok
  injection ho with ho'
  subst ho'
  exact ⟨rfl, strftime_shape eff.now, rfl⟩

/-- Witness for C8: the concrete output record of the all-successful
environment. -/
theorem c8_witness :
    (process_category_with_shared_browser effOkW "sports" "data" "data/inshorts"
      20 10 60 (mkBrowser true) = Except.ok (true, some outW) ∧ ValidTime effOkW.now) ∧
    (outW.metadata.source_file = joinPath "data" ("news_" ++ "sports" ++ ".json") ∧
     timestampShape outW.metadata.generation_time = true ∧
     outW.metadata.total_articles = outW.articles.length) :=
  ⟨⟨rfl, by decide⟩,
   c8_output_metadata effOkW "sports" "data" "data/inshorts" 20 10 60
     (mkBrowser true) outW rfl (by decide)⟩

/-- Claim C9: for every accepted command line the parsed `headless` value is
`True` — the flag is `store_true` with a hardcoded default of `True`, so it
cannot be turned off — and consequently every successfully acquired browser
session carries the `--headless` option. -/
theorem c9_headless_always_on (cl : CmdLine) :
    (parse_args cl).headless = true ∧
    ∀ {E : Type} (out : Except E Unit) (b : Browser),
      setup_shared_browser (parse_args cl).headless out = Except.ok b →
        "--headless" ∈ b.options := by
  have hh : (parse_args cl).headless = true := by
    show storeTrue cl.headlessFlag true = true
    cases cl.headlessFlag <;> rfl
  refine ⟨hh, ?_⟩
  intro E out b hb
  cases out with
  | error e => exact absurd hb (by simp [setup_shared_browser])
  | ok u =>
    dsimp only [setup_shared_browser] at hb
    injection hb with hb'
    rw [← hb', hh]
    simp [mkBrowser, browserOptions]

/-- Witness for C9: the empty command line still parses headless and the
acquired session is configured headless. -/
theorem c9_witness :
    (parse_args clW).headless = true ∧
    "--headless" ∈ (mkBrowser (parse_args clW).headless).options :=
  ⟨(c9_headless_always_on clW).1,
   (c9_headless_always_on clW).2 (Except.ok () : Except Unit Unit)
     (mkBrowser (parse_args clW).headless) rfl⟩

/-- Claim C10: the page-load timeout of every acquired browser session is
the constant 20, for every command line — in particular independently of the
`--timeout` flag, which defaults to 10 and only feeds the per-article
summarizer (`setup_shared_browser` never receives it). -/
theorem c10_page_load_timeout (cl : CmdLine) {E : Type} (out : Except E Unit)
    (b : Browser)
    (hb : setup_shared_browser (parse_args cl).headless out = Except.ok b) :
    b.pageLoadTimeout = 20 ∧ (cl.timeoutArg = none → (parse_args cl).timeout = 10) := by
  constructor
  · cases out with
    | error e => exact absurd hb (by simp [setup_shared_browser])
    | ok u =>
      dsimp only [setup_shared_browser] at hb
      injection hb with hb'
      rw [← hb']
      rfl
  · intro hnone
    show cl.timeoutArg.getD 10 = 10
    rw [hnone]
    rfl

/-- Witness for C10: on the empty command line the acquired session has
page-load timeout 20 and the parsed timeout default is 10. -/
theorem c10_witness :
    (mkBrowser (parse_args clW).headless).pageLoadTimeout = 20 ∧
    (clW.timeoutArg = none → (parse_args clW).timeout = 10) :=
  c10_page_load_timeout clW (Except.ok () : Except Unit Unit)
    (mkBrowser (parse_args clW).headless) rfl
